import Mathlib

/-
Verification of the grating-position control subsystem of the qudi monochromator
drivers: a shallow embedding in Lean 4 of the three spectrometer drivers
(binary HR640, ASCII FHR1000, ASCII i300) and the HR640 logic adapter, with
theorems about the motion, backlash, persistence, status-decoding and slit
behaviours.  Wavelengths and positions are modelled as rationals; the command
traffic each call issues on the serial link is modelled as a list of command
events.  Busy-poll repetitions (whose count depends on the physical device) are
elided from the traces; every command the driver writes before or between
polls is kept.
-/

/-! ## Shared helpers: Python-style number formatting, parsing and rounding -/

/-- Character of a single decimal digit (0-9). -/
def digitChar (d : ℕ) : Char := Char.ofNat (48 + d)

/-- Decimal digits of a natural number, most significant first.  Fuel-driven
structural recursion; 20 digits suffice for every value a driver prints. -/
def natDigitsAux : ℕ → ℕ → List Char
  | 0, _ => []
  | fuel + 1, n => if n < 10 then [digitChar n] else natDigitsAux fuel (n / 10) ++ [digitChar (n % 10)]

/-- Decimal digits of the fraction num/den (with num < den), stopping when the
remainder is zero.  This is the terminating decimal expansion; the drivers only
print values whose expansion terminates (Python prints those the same way). -/
def fracDigitsN : ℕ → ℕ → ℕ → List Char
  | 0, _, _ => []
  | fuel + 1, n, d => if n = 0 then [] else digitChar (n * 10 / d) :: fracDigitsN fuel (n * 10 % d) d

/-- Characters of Python str(float) for a value with terminating decimal
expansion: optional minus sign, integer part, a dot, then the fractional
digits (a single 0 when the value is integral), e.g. 650.25 ↦ "650.25" and
650 ↦ "650.0".  This models the f-string / str() formatting the ASCII drivers
use for the exactly-representable command values they send. -/
def pyFloatChars (q : ℚ) : List Char :=
  let a := if q < 0 then -q else q
  let ip := a.num.toNat / a.den
  let fr := a.num.toNat % a.den
  (if q < 0 then ['-'] else []) ++ natDigitsAux 20 ip ++
    '.' :: (if fr = 0 then ['0'] else fracDigitsN 20 fr a.den)

/-- Natural number denoted by a list of decimal digit characters. -/
def natOfDigits (cs : List Char) : ℕ := cs.foldl (fun acc c => acc * 10 + (c.toNat - 48)) 0

/-- Apply an exponent suffix to a parsed mantissa: the digits must be nonempty
and all decimal, as Python float() requires after e or E. -/
def applyExponent (mant : ℚ) (neg : Bool) (digits : List Char) : Option ℚ :=
  if digits ≠ [] ∧ digits.all Char.isDigit then
    some (if neg then mant / 10 ^ natOfDigits digits else mant * 10 ^ natOfDigits digits)
  else none

/-- Model of Python float(token) on a stripped token, covering the decimal
literal forms ([sign] digits [. digits] [(e|E) [sign] digits]) that appear in
the calibration and position files; any other token is rejected (None), which
the drivers treat as an unparseable token. -/
def parseFloat (cs : List Char) : Option ℚ :=
  let signAndRest : ℚ × List Char :=
    match cs with
    | '+' :: t => (1, t)
    | '-' :: t => (-1, t)
    | _ => (1, cs)
  let ip := signAndRest.2.takeWhile Char.isDigit
  let rest1 := signAndRest.2.dropWhile Char.isDigit
  let fracAndRest : List Char × List Char :=
    match rest1 with
    | '.' :: t => (t.takeWhile Char.isDigit, t.dropWhile Char.isDigit)
    | _ => ([], rest1)
  if ip = [] ∧ fracAndRest.1 = [] then none
  else
    let mant : ℚ :=
      signAndRest.1 * ((natOfDigits ip : ℚ) + (natOfDigits fracAndRest.1 : ℚ) / 10 ^ fracAndRest.1.length)
    match fracAndRest.2 with
    | [] => some mant
    | 'e' :: t =>
      (match t with
       | '+' :: u => applyExponent mant false u
       | '-' :: u => applyExponent mant true u
       | u => applyExponent mant false u)
    | 'E' :: t =>
      (match t with
       | '+' :: u => applyExponent mant false u
       | '-' :: u => applyExponent mant true u
       | u => applyExponent mant false u)
    | _ => none

/-- Model of Python str.strip(): drop whitespace from both ends. -/
def stripChars (cs : List Char) : List Char :=
  ((cs.dropWhile Char.isWhitespace).reverse.dropWhile Char.isWhitespace).reverse

/-- Worker for whitespace splitting: acc holds the current token reversed. -/
def splitWsAux : List Char → List Char → List (List Char)
  | [], acc => if acc = [] then [] else [acc.reverse]
  | c :: rest, acc =>
    if c.isWhitespace then
      (if acc = [] then splitWsAux rest [] else acc.reverse :: splitWsAux rest [])
    else splitWsAux rest (c :: acc)

/-- Model of Python str.split() with no argument: split on runs of whitespace,
discarding empty tokens. -/
def splitWs (cs : List Char) : List (List Char) := splitWsAux cs []

/-- Nearest integer with ties to even, as Python round() resolves ties. -/
def roundHalfEven (q : ℚ) : ℤ :=
  if q - ⌊q⌋ < 1 / 2 then ⌊q⌋
  else if 1 / 2 < q - ⌊q⌋ then ⌊q⌋ + 1
  else if 2 ∣ ⌊q⌋ then ⌊q⌋ else ⌊q⌋ + 1

/-- Model of Python round(q, ndigits): round to the nearest multiple of
10^(-ndigits), ties to even. -/
def pythonRound (q : ℚ) (ndigits : ℕ) : ℚ :=
  (roundHalfEven (q * 10 ^ ndigits) : ℚ) / 10 ^ ndigits

/-! ## Binary HR640 driver (hardware/spectrometer/hr640_spectrometer.py) -/

namespace Hr640

/-- Source convert_from_nm_to_bytes: multiply the wavelength by 1000, decompose
with floors into base-65536/256 place values, and reverse the byte order for
the wire. -/
def convert_from_nm_to_bytes (wavelength_nm : ℚ) : List ℤ :=
  let w := wavelength_nm * 1000
  let b0 : ℤ := ⌊w / 65536⌋
  let b1 : ℤ := ⌊(w - (b0 : ℚ) * 65536) / 256⌋
  let b2 : ℤ := ⌊w - (b0 : ℚ) * 65536 - (b1 : ℚ) * 256⌋
  [b2, b1, b0]

/-- Source convert_from_bytes_to_nm: reverse the byte order, recompose the
base-65536/256/1 value and divide by 1000. The wire always delivers exactly
three payload bytes; other shapes (a Python IndexError) are mapped to 0. -/
def convert_from_bytes_to_nm (wavelength_bytes : List ℤ) : ℚ :=
  match wavelength_bytes.reverse with
  | b0 :: b1 :: b2 :: _ => ((b0 : ℚ) * 65536 + (b1 : ℚ) * 256 + (b2 : ℚ)) / 1000
  | _ => 0

/-- Source is_busy: the 6-byte status reply is decoded by its byte at offset 4;
98 (lowercase b) means ready (False), 66 (uppercase B) means busy (True), and
any other byte is an unrecognized-status fault: the driver prints an error and
falls off the function, returning the sentinel None. -/
def is_busy (reply : List ℕ) : Option Bool :=
  match reply.get? 4 with
  | some b => if b = 98 then some false else if b = 66 then some true else none
  | none => none

/-- Commands move_to_nm writes on the serial link: a load-target frame carrying
an encoded wavelength, the read-absolute-position query frame, and the go
frame (busy polls after a go are elided from the trace). -/
inductive HCmd where
  | loadTarget (w : ℚ)
  | readPos
  | go
  deriving DecidableEq

/-- Positions the grating actually moves to: each go command moves to the most
recently loaded target. -/
def hMovesAux : List HCmd → Option ℚ → List ℚ
  | [], _ => []
  | HCmd.loadTarget w :: rest, _ => hMovesAux rest (some w)
  | HCmd.readPos :: rest, t => hMovesAux rest t
  | HCmd.go :: rest, t => t.toList ++ hMovesAux rest t

/-- Destinations of the go commands in a trace, in order. -/
def hMoves (cmds : List HCmd) : List ℚ := hMovesAux cmds none

/-- Modelled from the spec: wavelength_to_absolute_position calls scipy's
optimize.newton (a library external to this repository) to solve
c0 + c1·x + c2·x² + c3·x³ − 10·w = 0 and returns root/10.  For the identity
calibration [0, 1, 0, 0] of the claim the equation is linear with unique root
x = 10·w, which the root finder reaches exactly, so the function returns w. -/
def identity_inverse_calibration (wavelength_nm : ℚ) : ℚ := wavelength_nm * 10 / 10

/-- Source Hr640.move_to_nm, as the command trace it issues: compute the
inverse-calibrated target and load it, read the current position, then—if the
current reading is below the requested wavelength—load wavelength−1 as target
and go; if above, go (to the already-loaded calibrated target); if equal, do
nothing further.  The inverse calibration is passed as a function parameter
(the source computes it with an external root finder). -/
def move_to_nm (invCal : ℚ → ℚ) (position_now wavelength_nm : ℚ) : List HCmd :=
  HCmd.loadTarget (invCal wavelength_nm) :: HCmd.readPos ::
    (if position_now < wavelength_nm then [HCmd.loadTarget (wavelength_nm - 1), HCmd.go]
     else if position_now > wavelength_nm then [HCmd.go]
     else [])

/-- The two-line spectralink.pos position file: a fixed human-readable header
line and the absolute position in angstrom on the second line.  The numeric
payload (written with str, read back with float) is modelled as the rational
value the text denotes; Python str/float round-trip such terminating decimal
numerals exactly. -/
structure PosFile where
  header : String
  positionAngstrom : ℚ
  deriving DecidableEq

/-- Source put_absolute_position_to_file: convert the wavelength to angstrom
(times 10), round to 3 decimals, and overwrite the file with the fixed header
line and the rounded value. -/
def put_absolute_position_to_file (wavelength_nm : ℚ) : PosFile :=
  { header := "Absolute position for HR640 monochromator:"
    positionAngstrom := pythonRound (wavelength_nm * 10) 3 }

/-- Source get_absolute_position_from_file: read the second line as a float
and divide by 10 (the file stores angstrom, the driver works in nm). -/
def get_absolute_position_from_file (file : PosFile) : ℚ :=
  file.positionAngstrom / 10

/-- Source get_coefficients_from_file: take lines 5 to 8 of the calibration
file (Python slice dat[4:8]), strip each, split each on whitespace, flatten,
and collect every token that parses as a float, silently skipping the rest
(try/except ValueError: pass).  The function returns whatever list results;
it performs no length check and raises no parse error. -/
def get_coefficients_from_file (lines : List String) : List ℚ :=
  let dat := (lines.drop 4).take 4
  let tokens := (dat.map (fun l => splitWs (stripChars l.data))).flatten
  tokens.filterMap parseFloat

/-- Source absolute_position_to_wavelength: evaluate the cubic at
x = wavelength_nm·10 and divide by 10, indexing coeffs[0]..coeffs[3].  A
coefficient list shorter than 4 makes the Python indexing raise (IndexError),
modelled as None. -/
def absolute_position_to_wavelength (coeffs : List ℚ) (wavelength_nm : ℚ) : Option ℚ :=
  match coeffs with
  | c0 :: c1 :: c2 :: c3 :: _ =>
    let x := wavelength_nm * 10
    some ((c0 + x * c1 + x * x * c2 + x * x * x * c3) / 10)
  | _ => none

end Hr640

/-! ## HR640 logic adapter (logic/hr640_logic.py) and its GUI caller -/

namespace Hr640Logic

/-- Effects the logic adapter produces: reads/writes of the two calibration
files and the hardware commands it drives (load-position, load-target, go;
the busy polling inside go_busy is elided). -/
inductive LEvent where
  | readPosFile
  | readCalFile
  | writePosFile (positionAngstrom : ℚ)
  | hwLoadPosition (w : ℚ)
  | hwLoadTarget (w : ℚ)
  | hwGo
  deriving DecidableEq

/-- Source Hr640Logic.on_activate: read the absolute position from the
position file and the coefficients from the calibration file, once each; no
device commands are issued at activation by the logic adapter. -/
def on_activate_events : List LEvent := [LEvent.readPosFile, LEvent.readCalFile]

/-- Source Hr640Logic.move_to_nm, as the event trace it produces together
with the updated in-memory absolute_position: a target below the stored
position loads target−0.5, goes, then loads the target and goes again; a
target above loads the target and goes once; an equal target does nothing.
The in-memory position is updated, but no file write is performed. -/
def move_to_nm (absolute_position target_nm : ℚ) : List LEvent × ℚ :=
  if target_nm < absolute_position then
    ([LEvent.hwLoadTarget (target_nm - 0.5), LEvent.hwGo,
      LEvent.hwLoadTarget target_nm, LEvent.hwGo], target_nm)
  else if target_nm > absolute_position then
    ([LEvent.hwLoadTarget target_nm, LEvent.hwGo], target_nm)
  else
    ([], absolute_position)

/-- Destinations of the go events in a logic trace: each go moves the grating
to the most recently loaded target. -/
def lMovesAux : List LEvent → Option ℚ → List ℚ
  | [], _ => []
  | LEvent.hwLoadTarget w :: rest, _ => lMovesAux rest (some w)
  | LEvent.hwGo :: rest, t => t.toList ++ lMovesAux rest t
  | _ :: rest, t => lMovesAux rest t

/-- Destinations of the go events in a trace, in order. -/
def lMoves (events : List LEvent) : List ℚ := lMovesAux events none

/-- Whether an event writes the position file. -/
def isWritePosFile : LEvent → Bool
  | LEvent.writePosFile _ => true
  | _ => false

/-- Source Hr640Gui.absolute_position_box_changed, the only caller of
put_absolute_position_to_file: store the edited box value as the logic
module's absolute_position, write it to the position file (rounded to 3
decimals in angstrom), and emit sigLoadPosition, which loads that position
into the device. -/
def gui_absolute_position_box_changed (value : ℚ) : List LEvent :=
  [LEvent.writePosFile (pythonRound (value * 10) 3), LEvent.hwLoadPosition value]

end Hr640Logic

/-! ## ASCII FHR1000 driver (hardware/spectrometer/fhr1000_spectrometer.py) -/

namespace Fhr1000

/-- Commands the FHR1000 driver writes: the position query Z62,0 and the
move command Z61,0,w issued by goto_position_nm_busy (whose trailing busy
polls with E are elided from the trace). -/
inductive FCmd where
  | queryPos
  | move (w : ℚ)
  deriving DecidableEq

/-- Source Fhr1000.move_to_nm, as the command trace it issues: read the
current position and round it to 2 decimals; a rounded reading below the
requested wavelength triggers one direct move; a rounded reading above it
triggers a move to wavelength−5 followed by a move to the wavelength (backlash
compensation); an equal reading only logs and issues no move. -/
def move_to_nm (current_raw wavelength_nm : ℚ) : List FCmd :=
  let current_position_nm := pythonRound current_raw 2
  FCmd.queryPos ::
    (if current_position_nm < wavelength_nm then [FCmd.move wavelength_nm]
     else if current_position_nm > wavelength_nm then
       [FCmd.move (wavelength_nm - 5), FCmd.move wavelength_nm]
     else [])

/-- Wavelengths of the move commands in a trace, in order. -/
def fMoves (cmds : List FCmd) : List ℚ :=
  cmds.filterMap fun c => match c with | FCmd.move w => some w | _ => none

/-- Source Fhr1000.move_slit_absolute_um, as the list of relative step moves
(k0,0,steps commands) it issues: requests outside [0, 2000] µm are rejected
with a warning and no commands; opening (requested above current) is one
direct relative move; closing to at least 100 µm stops 50 steps short and
approaches forward by 50; closing below 100 µm first closes fully
(−current/2 steps) and then opens to the requested width.  The current width
in µm is the slit step reading times 2. -/
def move_slit_absolute_um (current_slit_steps requested_slit_um : ℚ) : List ℚ :=
  let current_slit_um := current_slit_steps * 2
  if 0 ≤ requested_slit_um ∧ requested_slit_um ≤ 2000 then
    if requested_slit_um > current_slit_um then
      [(requested_slit_um - current_slit_um) / 2]
    else if current_slit_um > requested_slit_um ∧ requested_slit_um ≥ 100 then
      [(requested_slit_um - current_slit_um) / 2 - 50, 50]
    else if current_slit_um > requested_slit_um ∧ requested_slit_um < 100 then
      [-current_slit_um / 2, requested_slit_um / 2]
    else []
  else []

end Fhr1000

/-! ## ASCII i300 driver (hardware/spectrometer/i300_spectrometer.py) -/

namespace I300

/-- Transport-level actions the i300 driver performs: setting the pyvisa
timeout (milliseconds) and sending a blocking query line. -/
inductive ICmd where
  | setTimeout (ms : ℕ)
  | query (s : String)
  deriving DecidableEq

/-- The move query line the source builds with an f-string: the Python str of
the wavelength followed by a space and NM. -/
def query_string (wavelength_nm : ℚ) : String :=
  String.mk (pyFloatChars wavelength_nm ++ (' ' :: ['N', 'M']))

/-- Source I300.move_to_nm, as the transport trace it performs: raise the
timeout to 600000 ms, issue the single blocking move query, and restore the
timeout to 2000 ms.  No position read, no busy polling, no intermediate
move. -/
def move_to_nm (wavelength_nm : ℚ) : List ICmd :=
  [ICmd.setTimeout 600000, ICmd.query (query_string wavelength_nm), ICmd.setTimeout 2000]

end I300

/-- A move list realizes the backlash pre-move pattern for a target: the final
move goes exactly to the target and some earlier move goes strictly below it. -/
def issues_premove_below (moves : List ℚ) (target : ℚ) : Prop :=
  moves.getLast? = some target ∧ ∃ m ∈ moves.dropLast, m < target

instance (moves : List ℚ) (target : ℚ) : Decidable (issues_premove_below moves target) := by
  unfold issues_premove_below
  infer_instance

/-! ## Theorems -/

/-- C3: for every wavelength in the valid encodable range
(0 ≤ wavelength·1000 < 2^24), decoding the 3-byte encoding returns the
wavelength within the 0.001 nm quantization introduced by the integer byte
decomposition, and the three bytes are in wire range 0..255. -/
theorem c3_bytes_roundtrip (wavelength_nm : ℚ) (h0 : 0 ≤ wavelength_nm * 1000)
    (h1 : wavelength_nm * 1000 < 2 ^ 24) :
    |Hr640.convert_from_bytes_to_nm (Hr640.convert_from_nm_to_bytes wavelength_nm) -
        wavelength_nm| < 1 / 1000 ∧
    ∀ b ∈ Hr640.convert_from_nm_to_bytes wavelength_nm, 0 ≤ b ∧ b < 256 := by
  set w := wavelength_nm * 1000 with hw
  set b0 : ℤ := ⌊w / 65536⌋ with hb0
  set b1 : ℤ := ⌊(w - (b0 : ℚ) * 65536) / 256⌋ with hb1
  set b2 : ℤ := ⌊w - (b0 : ℚ) * 65536 - (b1 : ℚ) * 256⌋ with hb2
  have henc : Hr640.convert_from_nm_to_bytes wavelength_nm = [b2, b1, b0] := rfl
  have hkey : b2 = ⌊w⌋ - (b0 * 65536 + b1 * 256) := by
    rw [hb2, show w - (b0 : ℚ) * 65536 - (b1 : ℚ) * 256 = w - ((b0 * 65536 + b1 * 256 : ℤ) : ℚ) by
      push_cast; ring]
    rw [Int.floor_sub_int]
  have hdec : Hr640.convert_from_bytes_to_nm [b2, b1, b0] = ((⌊w⌋ : ℤ) : ℚ) / 1000 := by
    show ((b0 : ℚ) * 65536 + (b1 : ℚ) * 256 + (b2 : ℚ)) / 1000 = _
    rw [hkey]; push_cast; ring
  have hfloor_le : ((⌊w⌋ : ℤ) : ℚ) ≤ w := Int.floor_le w
  have hfloor_gt : w - 1 < ((⌊w⌋ : ℤ) : ℚ) := Int.sub_one_lt_floor w
  constructor
  · rw [henc, hdec, abs_lt]
    constructor <;> [linarith; linarith]
  · have hr0 : (0 : ℚ) ≤ w - (b0 : ℚ) * 65536 := by
      have := Int.floor_le (w / 65536)
      rw [← hb0] at this
      nlinarith
    have hr1 : w - (b0 : ℚ) * 65536 < 65536 := by
      have := Int.lt_floor_add_one (w / 65536)
      rw [← hb0] at this
      nlinarith
    have hs0 : (0 : ℚ) ≤ w - (b0 : ℚ) * 65536 - (b1 : ℚ) * 256 := by
      have := Int.floor_le ((w - (b0 : ℚ) * 65536) / 256)
      rw [← hb1] at this
      nlinarith
    have hs1 : w - (b0 : ℚ) * 65536 - (b1 : ℚ) * 256 < 256 := by
      have := Int.lt_floor_add_one ((w - (b0 : ℚ) * 65536) / 256)
      rw [← hb1] at this
      nlinarith
    have hb0nn : 0 ≤ b0 := by
      rw [hb0]
      apply Int.floor_nonneg.mpr
      positivity
    have hb0lt : b0 < 256 := by
      rw [hb0]
      apply Int.floor_lt.mpr
      push_cast
      nlinarith
    have hb1nn : 0 ≤ b1 := by
      rw [hb1]
      apply Int.floor_nonneg.mpr
      positivity
    have hb1lt : b1 < 256 := by
      rw [hb1]
      apply Int.floor_lt.mpr
      push_cast
      nlinarith
    have hb2nn : 0 ≤ b2 := by
      rw [hb2]
      apply Int.floor_nonneg.mpr
      linarith
    have hb2lt : b2 < 256 := by
      rw [hb2]
      apply Int.floor_lt.mpr
      push_cast
      linarith
    rw [henc]
    intro b hb
    simp only [List.mem_cons, List.not_mem_nil, or_false] at hb
    rcases hb with h | h | h <;> subst h <;> exact ⟨by assumption, by assumption⟩

/-- C3 witness: the encodable wavelength 123.456 nm round-trips exactly. -/
theorem c3_witness :
    0 ≤ (123.456 : ℚ) * 1000 ∧ (123.456 : ℚ) * 1000 < 2 ^ 24 ∧
    |Hr640.convert_from_bytes_to_nm (Hr640.convert_from_nm_to_bytes 123.456) -
        (123.456 : ℚ)| < 1 / 1000 :=
  ⟨by norm_num, by norm_num, (c3_bytes_roundtrip 123.456 (by norm_num) (by norm_num)).1⟩

/-- C8: a 6-byte status reply decodes to ready (some false) exactly when its
byte at offset 4 is 98 (lowercase b), to busy (some true) exactly when that
byte is 66 (uppercase B), and to the logged-fault sentinel None for any other
byte value. -/
theorem c8_is_busy_decoding (b0 b1 b2 b3 b4 b5 : ℕ) :
    (Hr640.is_busy [b0, b1, b2, b3, b4, b5] = some false ↔ b4 = 98) ∧
    (Hr640.is_busy [b0, b1, b2, b3, b4, b5] = some true ↔ b4 = 66) ∧
    (b4 ≠ 98 → b4 ≠ 66 → Hr640.is_busy [b0, b1, b2, b3, b4, b5] = none) := by
  have h : Hr640.is_busy [b0, b1, b2, b3, b4, b5] =
      (if b4 = 98 then some false else if b4 = 66 then some true else none) := rfl
  by_cases h98 : b4 = 98 <;> by_cases h66 : b4 = 66 <;> simp_all [h]

/-- C8 witness: concrete 6-byte replies with status byte 98, 66 and 7. -/
theorem c8_witness :
    Hr640.is_busy [58, 2, 0, 0, 98, 58] = some false ∧
    Hr640.is_busy [58, 2, 0, 0, 66, 58] = some true ∧
    Hr640.is_busy [58, 2, 0, 0, 7, 58] = none :=
  ⟨(c8_is_busy_decoding 58 2 0 0 98 58).1.mpr rfl,
    (c8_is_busy_decoding 58 2 0 0 66 58).2.1.mpr rfl,
    (c8_is_busy_decoding 58 2 0 0 7 58).2.2 (by norm_num) (by norm_num)⟩

/-- C4: move_to_nm(650.25) on the i300 driver performs exactly three transport
actions: raise the timeout to 600000 ms, send the single blocking query
"650.25 NM", and restore the timeout to 2000 ms — no busy polling and no
intermediate move. -/
theorem c4_i300_move_trace :
    I300.move_to_nm (650.25 : ℚ) =
      [I300.ICmd.setTimeout 600000, I300.ICmd.query "650.25 NM",
        I300.ICmd.setTimeout 2000] := by
  have hn : (650.25 : ℚ).num.toNat = 2601 := by
    have h : (650.25 : ℚ).num = 2601 := by norm_num
    rw [h]; rfl
  have hd : (650.25 : ℚ).den = 4 := by norm_num
  have hneg : ¬ ((650.25 : ℚ) < 0) := by norm_num
  have h : pyFloatChars (650.25 : ℚ) = ['6', '5', '0', '.', '2', '5'] := by
    rw [pyFloatChars]
    rw [if_neg hneg, if_neg hneg, hn, hd]
    norm_num [natDigitsAux, fracDigitsN, digitChar]
  rw [I300.move_to_nm, I300.query_string, h]
  rfl

/-- C1 counterexample: the hardware Hr640.move_to_nm itself issues no pre-move
below the target when decreasing.  With the identity calibration [0,1,0,0],
moving from the current reading 510 to 500 issues only the load-target(500),
read-position and go commands: the single resulting motion goes to 500, with
no intermediate move strictly below 500 before it, contradicting the claim as
stated for the hardware driver. -/
theorem c1_counterexample :
    Hr640.hMoves (Hr640.move_to_nm Hr640.identity_inverse_calibration 510 500) = [500] ∧
    ¬ issues_premove_below
        (Hr640.hMoves (Hr640.move_to_nm Hr640.identity_inverse_calibration 510 500)) 500 := by
  have htr : Hr640.move_to_nm Hr640.identity_inverse_calibration 510 500 =
      [Hr640.HCmd.loadTarget 500, Hr640.HCmd.readPos, Hr640.HCmd.go] := by
    rw [Hr640.move_to_nm]
    norm_num [Hr640.identity_inverse_calibration]
  have hm : Hr640.hMoves (Hr640.move_to_nm Hr640.identity_inverse_calibration 510 500) = [500] := by
    rw [htr]; rfl
  refine ⟨hm, ?_⟩
  rw [hm]
  simp [issues_premove_below]

/-- C1 (amended): the backlash pre-move for the binary driver is performed by
the logic adapter Hr640Logic.move_to_nm: for every target strictly below the
stored current position it first moves to target − 0.5 nm (strictly below the
target) and then moves to exactly the target. -/
theorem c1_logic_backlash_premove (absolute_position target_nm : ℚ)
    (h : target_nm < absolute_position) :
    Hr640Logic.lMoves (Hr640Logic.move_to_nm absolute_position target_nm).1 =
      [target_nm - 0.5, target_nm] ∧
    issues_premove_below
      (Hr640Logic.lMoves (Hr640Logic.move_to_nm absolute_position target_nm).1) target_nm := by
  have htr : (Hr640Logic.move_to_nm absolute_position target_nm).1 =
      [Hr640Logic.LEvent.hwLoadTarget (target_nm - 0.5), Hr640Logic.LEvent.hwGo,
        Hr640Logic.LEvent.hwLoadTarget target_nm, Hr640Logic.LEvent.hwGo] := by
    rw [Hr640Logic.move_to_nm, if_pos h]
  have hm : Hr640Logic.lMoves (Hr640Logic.move_to_nm absolute_position target_nm).1 =
      [target_nm - 0.5, target_nm] := by
    rw [htr]; rfl
  refine ⟨hm, ?_⟩
  rw [hm]
  refine ⟨rfl, target_nm - 0.5, by simp, by linarith⟩

/-- C1 witness: from stored position 510 the logic adapter moves to 499.5 and
then to exactly 500. -/
theorem c1_witness :
    (500 : ℚ) < 510 ∧
    Hr640Logic.lMoves (Hr640Logic.move_to_nm 510 500).1 = [499.5, 500] := by
  refine ⟨by norm_num, ?_⟩
  have h := (c1_logic_backlash_premove 510 500 (by norm_num)).1
  rw [h]
  norm_num

/-- C2: for every target strictly below the rounded current reading, the
FHR1000 driver moves to exactly target − 5 nm and then to the target; for
every target strictly above the rounded current reading it issues exactly one
move, directly to the target. -/
theorem c2_fhr1000_backlash (current_raw wavelength_nm : ℚ) :
    (wavelength_nm < pythonRound current_raw 2 →
      Fhr1000.fMoves (Fhr1000.move_to_nm current_raw wavelength_nm) =
        [wavelength_nm - 5, wavelength_nm]) ∧
    (pythonRound current_raw 2 < wavelength_nm →
      Fhr1000.fMoves (Fhr1000.move_to_nm current_raw wavelength_nm) = [wavelength_nm]) := by
  constructor
  · intro h
    simp only [Fhr1000.move_to_nm]
    rw [if_neg (not_lt.mpr (le_of_lt h)), if_pos h]
    rfl
  · intro h
    simp only [Fhr1000.move_to_nm]
    rw [if_pos h]
    rfl

/-- C2 witness: from the exactly-representable reading 510, moving down to 500
issues the moves 495 then 500, and moving up to 520 issues the single move
520. -/
theorem c2_witness :
    ((500 : ℚ) < pythonRound 510 2 ∧
      Fhr1000.fMoves (Fhr1000.move_to_nm 510 500) = [495, 500]) ∧
    (pythonRound 510 2 < (520 : ℚ) ∧
      Fhr1000.fMoves (Fhr1000.move_to_nm 510 520) = [520]) := by
  have hr : pythonRound (510 : ℚ) 2 = 510 := by
    norm_num [pythonRound, roundHalfEven]
  constructor
  · refine ⟨by rw [hr]; norm_num, ?_⟩
    have h := (c2_fhr1000_backlash 510 500).1 (by rw [hr]; norm_num)
    rw [h]
    norm_num
  · exact ⟨by rw [hr]; norm_num, (c2_fhr1000_backlash 510 520).2 (by rw [hr]; norm_num)⟩

/-- C5 counterexample: a calibration file whose coefficient lines hold only
two parseable floats (1.5 and 2.5) makes get_coefficients_from_file return
the two-element list normally — no parse error is raised and activation is
not aborted, contradicting the claimed failure. -/
theorem c5_counterexample :
    Hr640.get_coefficients_from_file ["a", "b", "c", "d", "1.5 junk", "2.5", "", ""] =
      [3 / 2, 5 / 2] ∧
    (Hr640.get_coefficients_from_file ["a", "b", "c", "d", "1.5 junk", "2.5", "", ""]).length <
      4 := by
  have h : Hr640.get_coefficients_from_file ["a", "b", "c", "d", "1.5 junk", "2.5", "", ""] =
      [3 / 2, 5 / 2] := by
    simp +decide [Hr640.get_coefficients_from_file, stripChars, splitWs, splitWsAux, parseFloat,
      natOfDigits]
    norm_num
  exact ⟨h, by rw [h]; norm_num⟩

/-- C5 (amended): get_coefficients_from_file never fails: it returns the list
of all parseable floats.  When that list has fewer than 4 elements the error
surfaces only later, as an out-of-range indexing (None here) when the
calibration polynomial is evaluated; when it has at least 4, the evaluation
uses exactly the first four parsed floats, in order, as [c0, c1, c2, c3]. -/
theorem c5_coefficients (lines : List String) (wavelength_nm : ℚ) :
    ((Hr640.get_coefficients_from_file lines).length < 4 →
      Hr640.absolute_position_to_wavelength (Hr640.get_coefficients_from_file lines)
        wavelength_nm = none) ∧
    (∀ c0 c1 c2 c3 rest,
      Hr640.get_coefficients_from_file lines = c0 :: c1 :: c2 :: c3 :: rest →
      Hr640.absolute_position_to_wavelength (Hr640.get_coefficients_from_file lines)
        wavelength_nm =
        some ((c0 + wavelength_nm * 10 * c1 + wavelength_nm * 10 * (wavelength_nm * 10) * c2 +
          wavelength_nm * 10 * (wavelength_nm * 10) * (wavelength_nm * 10) * c3) / 10)) := by
  constructor
  · intro h
    rcases hc : Hr640.get_coefficients_from_file lines with _ | ⟨a, _ | ⟨b, _ | ⟨c, _ | ⟨d, t⟩⟩⟩⟩
    · rfl
    · rfl
    · rfl
    · rfl
    · rw [hc] at h
      simp only [List.length_cons] at h
      omega
  · intro c0 c1 c2 c3 rest hc
    rw [hc]
    rfl

/-- C5 witness: a file with four parseable coefficient tokens 1 2 3 4; the
calibration evaluation at 5 nm uses them in order. -/
theorem c5_witness :
    Hr640.get_coefficients_from_file ["a", "b", "c", "d", "1 2", "3", "4", ""] = [1, 2, 3, 4] ∧
    Hr640.absolute_position_to_wavelength
        (Hr640.get_coefficients_from_file ["a", "b", "c", "d", "1 2", "3", "4", ""]) 5 =
      some ((1 + 5 * 10 * 2 + 5 * 10 * (5 * 10) * 3 + 5 * 10 * (5 * 10) * (5 * 10) * 4) / 10) := by
  have hc : Hr640.get_coefficients_from_file ["a", "b", "c", "d", "1 2", "3", "4", ""] =
      [1, 2, 3, 4] := by
    simp +decide [Hr640.get_coefficients_from_file, stripChars, splitWs, splitWsAux, parseFloat,
      natOfDigits]
  exact ⟨hc, (c5_coefficients ["a", "b", "c", "d", "1 2", "3", "4", ""] 5).2 1 2 3 4 [] hc⟩

/-- C6 counterexample: a successful move that changes the stored position
(510 → 500) produces no position-file write at all: the logic adapter only
updates its in-memory absolute_position, contradicting the claimed write
after every position-changing move. -/
theorem c6_counterexample :
    (Hr640Logic.move_to_nm 510 500).1.filter Hr640Logic.isWritePosFile = [] ∧
    (Hr640Logic.move_to_nm 510 500).2 = 500 ∧ (500 : ℚ) ≠ 510 := by
  have h : (500 : ℚ) < 510 := by norm_num
  refine ⟨?_, ?_, by norm_num⟩ <;>
    simp [Hr640Logic.move_to_nm, h, Hr640Logic.isWritePosFile]

/-- C6 (amended): the position file is read exactly once at activation, but
moves never write it: every move_to_nm trace is free of position-file writes
while the in-memory position becomes the target; the file is written only by
the GUI handler for manual edits of the absolute-position box. -/
theorem c6_position_persistence :
    Hr640Logic.on_activate_events.count Hr640Logic.LEvent.readPosFile = 1 ∧
    (∀ absolute_position target_nm : ℚ,
      (Hr640Logic.move_to_nm absolute_position target_nm).1.filter Hr640Logic.isWritePosFile =
        [] ∧
      (Hr640Logic.move_to_nm absolute_position target_nm).2 = target_nm) ∧
    (∀ value : ℚ,
      (Hr640Logic.gui_absolute_position_box_changed value).filter Hr640Logic.isWritePosFile =
        [Hr640Logic.LEvent.writePosFile (pythonRound (value * 10) 3)]) := by
  refine ⟨rfl, ?_, fun value => rfl⟩
  intro p t
  rcases lt_trichotomy t p with h | h | h
  · constructor <;> simp [Hr640Logic.move_to_nm, h, Hr640Logic.isWritePosFile]
  · subst h
    constructor <;> simp [Hr640Logic.move_to_nm, lt_irrefl, Hr640Logic.isWritePosFile]
  · constructor <;>
      simp [Hr640Logic.move_to_nm, h, lt_asymm h, Hr640Logic.isWritePosFile]

/-- C7: saving a position representable at the persisted precision (its
angstrom value unchanged by rounding to 3 decimals) and loading it back
returns exactly the same wavelength. -/
theorem c7_position_roundtrip (wavelength_nm : ℚ)
    (h : pythonRound (wavelength_nm * 10) 3 = wavelength_nm * 10) :
    Hr640.get_absolute_position_from_file (Hr640.put_absolute_position_to_file wavelength_nm) =
      wavelength_nm := by
  simp only [Hr640.get_absolute_position_from_file, Hr640.put_absolute_position_to_file, h]
  linarith

/-- C7 witness: save then load of 532.123 returns 532.123. -/
theorem c7_witness :
    pythonRound ((532.123 : ℚ) * 10) 3 = (532.123 : ℚ) * 10 ∧
    Hr640.get_absolute_position_from_file (Hr640.put_absolute_position_to_file 532.123) =
      532.123 := by
  have h : pythonRound ((532.123 : ℚ) * 10) 3 = (532.123 : ℚ) * 10 := by
    norm_num [pythonRound, roundHalfEven]
  exact ⟨h, c7_position_roundtrip 532.123 h⟩

/-- C9 counterexample: with the FHR1000 at a reading equal to the requested
target (500), move_to_nm still sends a command to the device — the position
query — so the call is not command-free, contradicting the claim that no
commands are sent. -/
theorem c9_counterexample :
    Fhr1000.move_to_nm 500 500 = [Fhr1000.FCmd.queryPos] ∧
    Fhr1000.move_to_nm 500 500 ≠ [] := by
  have hr : pythonRound (500 : ℚ) 2 = 500 := by
    norm_num [pythonRound, roundHalfEven]
  have h : Fhr1000.move_to_nm 500 500 = [Fhr1000.FCmd.queryPos] := by
    simp [Fhr1000.move_to_nm, hr]
  exact ⟨h, by rw [h]; simp⟩

/-- C9 (amended): when the current position equals the target no motion is
started, but query traffic still occurs: the FHR1000 sends exactly its
position query and no move command; the HR640 hardware driver sends the
initial load-target and position-read commands but no go; only the HR640
logic adapter sends nothing at all. -/
theorem c9_equal_target_behaviour :
    (∀ current_raw wavelength_nm : ℚ, pythonRound current_raw 2 = wavelength_nm →
      Fhr1000.move_to_nm current_raw wavelength_nm = [Fhr1000.FCmd.queryPos]) ∧
    (∀ invCal : ℚ → ℚ, ∀ position_now wavelength_nm : ℚ, position_now = wavelength_nm →
      Hr640.move_to_nm invCal position_now wavelength_nm =
        [Hr640.HCmd.loadTarget (invCal wavelength_nm), Hr640.HCmd.readPos]) ∧
    (∀ absolute_position target_nm : ℚ, target_nm = absolute_position →
      Hr640Logic.move_to_nm absolute_position target_nm = ([], absolute_position)) ∧
    (∀ wavelength_nm : ℚ, I300.move_to_nm wavelength_nm =
      [I300.ICmd.setTimeout 600000, I300.ICmd.query (I300.query_string wavelength_nm),
        I300.ICmd.setTimeout 2000]) := by
  refine ⟨?_, ?_, ?_, fun _ => rfl⟩
  · intro c w h
    simp [Fhr1000.move_to_nm, h, lt_irrefl]
  · intro invCal p w h
    subst h
    simp [Hr640.move_to_nm, lt_irrefl]
  · intro p t h
    subst h
    simp [Hr640Logic.move_to_nm, lt_irrefl]

/-- C9 witness: equal-position calls at 500 for the three drivers, and the
i300 move query that is sent regardless of the current position. -/
theorem c9_witness :
    Fhr1000.move_to_nm 500 500 = [Fhr1000.FCmd.queryPos] ∧
    Hr640.move_to_nm (fun x => x) 500 500 =
      [Hr640.HCmd.loadTarget 500, Hr640.HCmd.readPos] ∧
    Hr640Logic.move_to_nm 500 500 = ([], 500) ∧
    I300.move_to_nm 500 =
      [I300.ICmd.setTimeout 600000, I300.ICmd.query (I300.query_string 500),
        I300.ICmd.setTimeout 2000] := by
  refine ⟨c9_equal_target_behaviour.1 500 500 (by norm_num [pythonRound, roundHalfEven]),
    ?_, c9_equal_target_behaviour.2.2.1 500 500 rfl, c9_equal_target_behaviour.2.2.2 500⟩
  exact c9_equal_target_behaviour.2.1 (fun x => x) 500 500 rfl

/-- C10: closing the slit to a width below 100 µm never uses the 50-step
backlash offset: the driver first closes fully (−current/2 steps) and then
opens to the requested width (+width/2 steps); conversely any trace of the
50-step short-then-forward shape arises only for a requested width of at
least 100 µm that is below the current width. -/
theorem c10_slit_backlash (current_slit_steps requested_slit_um : ℚ) :
    (0 ≤ requested_slit_um → requested_slit_um < 100 →
      requested_slit_um < current_slit_steps * 2 →
      Fhr1000.move_slit_absolute_um current_slit_steps requested_slit_um =
        [-(current_slit_steps * 2) / 2, requested_slit_um / 2]) ∧
    (∀ d : ℚ,
      Fhr1000.move_slit_absolute_um current_slit_steps requested_slit_um = [d, 50] →
      100 ≤ requested_slit_um ∧ requested_slit_um < current_slit_steps * 2) := by
  constructor
  · intro h0 h100 hlt
    simp only [Fhr1000.move_slit_absolute_um]
    rw [if_pos ⟨h0, by linarith⟩, if_neg (not_lt.mpr (le_of_lt hlt)),
      if_neg (fun hand => absurd hand.2 (not_le.mpr h100)), if_pos ⟨hlt, h100⟩]
  · intro d hd
    simp only [Fhr1000.move_slit_absolute_um] at hd
    split_ifs at hd with houter h1 h2 h3
    · simp at hd
    · exact ⟨h2.2, h2.1⟩
    · simp only [List.cons.injEq, and_true] at hd
      have h100 : requested_slit_um = 100 := by linarith [hd.2]
      linarith [h3.2]

/-- C10 witness: closing from 200 µm (100 steps) to 40 µm closes fully then
opens to 20 steps; closing from 200 µm to 150 µm produces the 50-step
pattern, which the theorem places in the ≥ 100 µm regime. -/
theorem c10_witness :
    Fhr1000.move_slit_absolute_um 100 40 = [-(100 * 2) / 2, 40 / 2] ∧
    ((100 : ℚ) ≤ 150 ∧ (150 : ℚ) < 100 * 2) := by
  constructor
  · exact (c10_slit_backlash 100 40).1 (by norm_num) (by norm_num) (by norm_num)
  · exact (c10_slit_backlash 100 150).2 (-75)
      (by norm_num [Fhr1000.move_slit_absolute_um])
